import Mathlib

/-!
Verification of the email QA engine (content extraction, URL canonicalization,
rule-based comparison, report aggregation).

The JavaScript source is shallowly embedded as executable Lean definitions:

* strings are Lean `String`s; the JS helpers `toLowerCase`, `trim`,
  `includes`, `startsWith`, `split` are re-implemented on `List Char`
  (for ASCII inputs these agree with the JS behavior);
* the WHATWG `URL` object is embedded as `URLRec` with a parser for
  hierarchical `scheme://host/path?query#fragment` URLs (no percent
  decoding / punycode / port handling, which the claims never exercise);
  `new URL` lower-cases scheme and host and normalizes an empty path to
  the root path, and `URLSearchParams` iteration is index-based over the
  live list, all of which the embedding reproduces;
* cheerio DOM queries are abstracted as input projections: an `Anchor`
  carries its display text, `href`, and whether it matches the union of
  button-like selectors; the footer-selector probes are passed as the
  (ordered) list of their results;
* JS `undefined`/missing arguments are `Option.none`; object fields that a
  branch omits are modelled as `none`/`[]`;
* human-readable issue/message strings are kept but paraphrased without
  quote characters; no claim depends on their exact wording.
-/

/-! ## String helpers (ASCII models of the JS string methods) -/

/-- Lower-case a character list (models `String.prototype.toLowerCase` on ASCII). -/
def lcList (cs : List Char) : List Char := cs.map Char.toLower

/-- Lower-case a string. -/
def sLower (s : String) : String := (lcList s.toList).asString

/-- Trim leading and trailing whitespace (models `String.prototype.trim` on ASCII). -/
def sTrim (s : String) : String :=
  (((s.toList.dropWhile Char.isWhitespace).reverse.dropWhile Char.isWhitespace).reverse).asString

/-- Does the second list occur at the start of the first? -/
def hasPre : List Char → List Char → Bool
  | _, [] => true
  | [], _ :: _ => false
  | a :: as, b :: bs => a == b && hasPre as bs

/-- Does the second list occur contiguously anywhere inside the first? -/
def hasSub : List Char → List Char → Bool
  | [], need => need.isEmpty
  | h :: t, need => hasPre (h :: t) need || hasSub t need

/-- Models `String.prototype.includes`. -/
def strContains (s pat : String) : Bool := hasSub s.toList pat.toList

/-- Models `String.prototype.startsWith`. -/
def sStartsWith (s pre : String) : Bool := hasPre s.toList pre.toList

/-- Split a character list at every occurrence of a separator
(models `String.prototype.split` with a single-character separator). -/
def splitCh (sep : Char) : List Char → List (List Char)
  | [] => [[]]
  | c :: cs =>
    match splitCh sep cs with
    | [] => [[c]]
    | h :: t => if c == sep then [] :: h :: t else (c :: h) :: t

/-- Split a string on newline characters. -/
def splitNlS (s : String) : List String := (splitCh '\n' s.toList).map List.asString

/-- Join strings with a newline (models `Array.prototype.join` with a newline). -/
def joinNl : List String → String
  | [] => ""
  | [l] => l
  | l :: ls => l ++ "\n" ++ joinNl ls

/-- Join strings with an ampersand. -/
def joinAmp : List String → String
  | [] => ""
  | [l] => l
  | l :: ls => l ++ "&" ++ joinAmp ls

/-- Take everything up to the final character when it is a slash
(models `replace` with a trailing-slash pattern, one occurrence). -/
def stripSlashEnd (s : String) : String :=
  match s.toList.reverse with
  | '/' :: rest => rest.reverse.asString
  | _ => s

/-! ## URL model (embedding of the WHATWG URL object as used by the source) -/

/-- A parsed hierarchical URL: scheme, host, path, query parameter list, fragment. -/
structure URLRec where
  scheme : String
  host : String
  path : String
  params : List (String × String)
  frag : Option String
deriving DecidableEq

/-- Split a character list at the first occurrence of the literal scheme
separator, returning the part before it and the part after it. -/
def splitSchemeAux : List Char → Option (List Char × List Char)
  | [] => none
  | ':' :: '/' :: '/' :: rest => some ([], rest)
  | c :: cs =>
    match splitSchemeAux cs with
    | some (s, r) => some (c :: s, r)
    | none => none

/-- Characters allowed in a URL scheme. -/
def isSchemeChar (c : Char) : Bool := c.isAlpha || c.isDigit || c == '+' || c == '-' || c == '.'

/-- Longest initial segment satisfying the predicate, with the remainder. -/
def spanL (p : Char → Bool) : List Char → (List Char × List Char)
  | [] => ([], [])
  | c :: cs => if p c then
      let (a, b) := spanL p cs
      (c :: a, b)
    else ([], c :: cs)

/-- Parse `application/x-www-form-urlencoded` query text into name/value pairs:
split on ampersands, skip empty segments, split each segment at its first
equals sign (missing value becomes the empty string). -/
def parseQuery (q : List Char) : List (String × String) :=
  (splitCh '&' q).filterMap fun seg =>
    match seg with
    | [] => none
    | _ =>
      let (k, rest) := spanL (fun c => c != '=') seg
      match rest with
      | _ :: v => some (k.asString, v.asString)
      | [] => some (k.asString, "")

/-- Parse a hierarchical URL string, modelling `new URL(s)`: requires a
scheme starting with a letter followed by the `://` separator and a
non-empty host; lower-cases scheme and host; an empty path becomes the root
path; the query is parsed into a parameter list. Returns `none` where
`new URL` would throw. -/
def parseURL (s : String) : Option URLRec :=
  match splitSchemeAux s.toList with
  | none => none
  | some (schemeCs, rest) =>
    match schemeCs with
    | [] => none
    | c0 :: _ =>
      if !c0.isAlpha || !schemeCs.all isSchemeChar then none
      else
        let (hostCs, rest2) := spanL (fun c => c != '/' && c != '?' && c != '#') rest
        if hostCs.isEmpty then none
        else
          let (pathCs, rest3) := spanL (fun c => c != '?' && c != '#') rest2
          let (queryCs, fragOpt) :=
            match rest3 with
            | '?' :: qs =>
              let (q, r) := spanL (fun c => c != '#') qs
              (q, match r with
                  | _ :: fs => some fs
                  | [] => (none : Option (List Char)))
            | '#' :: fs => (([] : List Char), some fs)
            | _ => (([] : List Char), (none : Option (List Char)))
          some {
            scheme := (lcList schemeCs).asString
            host := (lcList hostCs).asString
            path := if pathCs.isEmpty then "/" else pathCs.asString
            params := parseQuery queryCs
            frag := fragOpt.map List.asString }

/-- Serialize a `URLRec` back to a string, modelling `URL.prototype.toString`
after `URLSearchParams` mutation: when the parameter list is empty the query
component is absent entirely. -/
def URLRec.toStr (u : URLRec) : String :=
  u.scheme ++ "://" ++ u.host ++ u.path
    ++ (if u.params.isEmpty then "" else "?" ++ joinAmp (u.params.map (fun kv => kv.1 ++ "=" ++ kv.2)))
    ++ (match u.frag with
        | none => ""
        | some f => "#" ++ f)

/-- The fixed tracking-parameter list from the source (field `trackingParams`). -/
def trackingParams : List String :=
  ["utm_source", "utm_medium", "utm_campaign", "utm_term", "utm_content",
   "elqTrack", "elqTrackId", "mkt_tok", "mc_cid", "mc_eid",
   "sfmc_id", "subscriber_id", "contact_id", "lead_id",
   "_hsenc", "_hsmi", "hsa_", "fbclid", "gclid", "msclkid",
   "trk", "track", "tracking", "ref", "source"]

/-- One pass of the inner loop of `stripTrackingParams`, embedding the WHATWG
`URLSearchParams` pair iterator: the iterator keeps an index into the live
list, each step reads the entry at the index and then increments the index,
and deleting a key removes every pair with exactly that name and shifts later
entries down (so the entry right after a deleted entry is skipped).  The
fuel argument is the initial list length: the index grows by one every step
and the list never grows, so the loop always stops within that many steps,
and when fuel runs out the index already equals the (initial, hence at least
the current) length, making the early return coincide with the loop exit. -/
def deletePassFuel : Nat → String → Nat → List (String × String) → List (String × String)
  | 0, _, _, l => l
  | fuel + 1, p, i, l =>
    if h : i < l.length then
      let key := (l.get ⟨i, h⟩).1
      if sStartsWith (sLower key) (sLower p) then
        deletePassFuel fuel p (i + 1) (l.filter (fun e => e.1 != key))
      else deletePassFuel fuel p (i + 1) l
    else l

/-- Iterate over the live parameter list once for one tracking-parameter
entry, deleting (case-insensitively) every key that starts with it that the
skipping iterator actually visits. -/
def deletePass (p : String) (l : List (String × String)) : List (String × String) :=
  deletePassFuel l.length p 0 l

/-- The body of `stripTrackingParams` on the parameter list: for each entry of
the fixed tracking list, first delete the exact (case-sensitive) name, then
run the live-iterator pass over keys starting with it. -/
def stripParamsList (l : List (String × String)) : List (String × String) :=
  trackingParams.foldl (fun acc p => deletePass p (acc.filter (fun e => e.1 != p))) l

/-- `stripTrackingParams` (the canonicalizer of §4.2): parse the URL, delete
tracking parameters, serialize; on an unparseable URL return the input
unchanged (the catch branch of the source returns `url` as-is). -/
def stripTrackingParams (url : String) : String :=
  match parseURL url with
  | some u => URLRec.toStr { u with params := stripParamsList u.params }
  | none => url

/-- `normalizeUrl` from the comparator (the stricter canonical form):
lower-cased origin plus path with one trailing slash removed, query
discarded; on an unparseable URL, the input lower-cased with one trailing
slash removed. -/
def normalizeUrl (url : String) : String :=
  match parseURL url with
  | some u => sLower (u.scheme ++ "://" ++ u.host) ++ stripSlashEnd u.path
  | none => stripSlashEnd (sLower url)

/-! ## Content model (EmailFetcher output) -/

/-- A CTA / link entry as built by the extractor. -/
structure CTA where
  text : String
  url : String
  cleanUrl : String
deriving DecidableEq

/-- The unsubscribe signal produced by `findUnsubscribe`. -/
structure UnsubSignal where
  hasText : Bool
  hasLink : Bool
  found : Bool
deriving DecidableEq

/-- The structured email content produced by `parseEmail`. -/
structure EmailContent where
  text : String
  html : String
  ctaButtons : List CTA
  links : List CTA
  hasUnsubscribe : Option UnsubSignal
  footer : String
deriving DecidableEq

/-- An anchor element of the parsed markup, abstracting the cheerio DOM:
its displayed text (before trimming), its href attribute, and whether it is
selected by the union of button-like CTA selectors. -/
structure Anchor where
  text : String
  href : String
  buttonLike : Bool
deriving DecidableEq

/-- The fixed action-verb alternatives of the CTA keyword pattern
(anchored at the start of the text, case-insensitive). -/
def actionVerbs : List String :=
  ["shop", "buy", "get", "learn", "discover", "start", "try", "sign",
   "register", "subscribe", "download", "view", "see", "explore", "claim",
   "grab", "save"]

/-- Does the trimmed display text start (case-insensitively) with an action verb? -/
def isActionText (t : String) : Bool := actionVerbs.any fun v => sStartsWith (sLower t) v

/-- Build the CTA record pushed by `extractCTAs`: trimmed text, raw href,
and the tracking-stripped href. -/
def mkCTA (a : Anchor) : CTA :=
  { text := sTrim a.text, url := a.href, cleanUrl := stripTrackingParams a.href }

/-- The pass-1 condition of `extractCTAs`: a button-like element with
non-empty trimmed text and non-empty href. -/
def pass1cond (a : Anchor) : Bool :=
  a.buttonLike && (sTrim a.text != "") && (a.href != "")

/-- The pass-2 condition of `extractCTAs` against the candidates accumulated
so far: non-empty trimmed text and href, text starting with an action verb,
and no already-collected candidate with exactly the same display text. -/
def pass2cond (acc : List CTA) (a : Anchor) : Bool :=
  (sTrim a.text != "") && (a.href != "") && isActionText (sTrim a.text)
    && !(acc.any fun c => c.text == sTrim a.text)

/-- `extractCTAs`: pass 1 collects the button-like anchors in document
order; pass 2 scans every anchor in document order, adding those whose text
starts with an action verb and is not already present. -/
def extractCTAs (doc : List Anchor) : List CTA :=
  let p1 := (doc.filter pass1cond).map mkCTA
  doc.foldl (fun acc a => if pass2cond acc a then acc ++ [mkCTA a] else acc) p1

/-- `findUnsubscribe`: text signal from case-insensitive containment in the
visible body text, link signal from any anchor whose href contains one of
the unsubscribe markers (attribute selectors are case-sensitive). -/
def findUnsubscribe (bodyText : String) (anchors : List Anchor) : UnsubSignal :=
  let unsubText := sLower bodyText
  let hasUnsubText := strContains unsubText "unsubscribe"
    || strContains unsubText "opt out" || strContains unsubText "opt-out"
  let unsubLink := anchors.any fun a =>
    strContains a.href "unsubscribe" || strContains a.href "optout"
      || strContains a.href "opt-out"
  { hasText := hasUnsubText, hasLink := unsubLink, found := hasUnsubText || unsubLink }

/-- The non-blank lines of a text: split on newlines, keep lines whose trim
is non-empty (JS keeps a line when `l.trim()` is truthy). -/
def nonBlankLines (s : String) : List String :=
  (splitNlS s).filter fun l => sTrim l != ""

/-- First successful footer-selector probe: the selector loop takes the
first selector with a match, uses that element's trimmed text, and breaks. -/
def firstHit : List (Option String) → String
  | [] => ""
  | none :: rest => firstHit rest
  | some s :: _ => sTrim s

/-- `extractFooter`: the trimmed text of the first matching footer-like
selector; when that is empty (no selector matched, or the matched element
was blank), fall back to the last 5 non-blank lines of the body text joined
by newline (JS `slice(-5)` is `drop (length - 5)`). -/
def extractFooter (selectorHits : List (Option String)) (bodyText : String) : String :=
  let footerText := firstHit selectorHits
  if footerText = "" then
    let lines := nonBlankLines bodyText
    joinNl (lines.drop (lines.length - 5))
  else footerText

/-! ## Rule-based comparator (FunctionComparator) -/

/-- Pass/fail status of a deterministic check or of the overall report. -/
inductive Status
  | PASS
  | FAIL
deriving DecidableEq

/-- Result shape of the two CTA checks (absent JS object keys are `none`/`[]`). -/
structure CtaResult where
  status : Status
  message : Option String
  expected : List String
  found : List String
  matched : List String
  issues : List String
deriving DecidableEq

/-- Result shape of the unsubscribe check. -/
structure UnsubResult where
  status : Status
  message : Option String
  required : Option String
  issues : List String
  hasLink : Option Bool
  hasText : Option Bool
deriving DecidableEq

/-- Result shape of the footer check. -/
structure FooterResult where
  status : Status
  required : List String
  found : List String
  issues : List String
deriving DecidableEq

/-- Result shape of the keywords check. -/
structure KeywordsResult where
  status : Status
  message : Option String
  required : List String
  found : List String
  missing : List String
  issues : List String
deriving DecidableEq

/-- `compareCTAText`: vacuous pass when no CTAs are configured; otherwise an
expected label matches when some email CTA text (lower-cased, trimmed)
equals, contains, or is contained in the expected label (lower-cased,
trimmed); the check fails when any expected label is unmatched. -/
def compareCTAText (documentText : String) (emailCTAs : List CTA)
    (expectedCTAs : Option (List String)) : CtaResult :=
  let exp := expectedCTAs.getD []
  if exp.isEmpty then
    { status := .PASS, message := some "No specific CTAs configured for comparison",
      expected := [], found := emailCTAs.map (·.text), matched := [], issues := [] }
  else
    let emailCTATexts := emailCTAs.map fun c => sTrim (sLower c.text)
    let isFound := fun (e : String) =>
      let ne := sTrim (sLower e)
      emailCTATexts.any fun t => t == ne || strContains t ne || strContains ne t
    let matched := exp.filter isFound
    let issues := (exp.filter fun e => !isFound e).map
      fun e => "CTA not found in email: " ++ e
    { status := if issues.isEmpty then .PASS else .FAIL, message := none,
      expected := exp, found := emailCTAs.map (·.text),
      matched := matched, issues := issues }

/-- `compareCTAUrls`: vacuous pass when no URLs are configured; otherwise an
expected URL matches when some email CTA clean URL, after the strict
normalization, equals, contains, or is contained in the normalized expected
URL. -/
def compareCTAUrls (emailCTAs : List CTA)
    (expectedUrls : Option (List String)) : CtaResult :=
  let exp := expectedUrls.getD []
  if exp.isEmpty then
    { status := .PASS, message := some "No specific URLs configured for comparison",
      expected := [], found := emailCTAs.map (·.cleanUrl), matched := [], issues := [] }
  else
    let isFound := fun (expectedUrl : String) =>
      let cleanExpected := normalizeUrl expectedUrl
      emailCTAs.any fun c =>
        let cleanFound := normalizeUrl c.cleanUrl
        cleanFound == cleanExpected || strContains cleanFound cleanExpected
          || strContains cleanExpected cleanFound
    let matched := exp.filter isFound
    let issues := (exp.filter fun e => !isFound e).map
      fun e => "URL not found in email CTAs: " ++ e
    { status := if issues.isEmpty then .PASS else .FAIL, message := none,
      expected := exp, found := emailCTAs.map (·.cleanUrl),
      matched := matched, issues := issues }

/-- `checkUnsubscribe`: fails only when the extractor signal is absent or
not found AND the configured text (default the word unsubscribe) does not
appear case-insensitively in the full email text. -/
def checkUnsubscribe (emailContent : EmailContent)
    (requiredTextOpt : Option String) : UnsubResult :=
  let requiredText := requiredTextOpt.getD "unsubscribe"
  let hasUnsubscribe := (emailContent.hasUnsubscribe.map UnsubSignal.found).getD false
  let textLower := sLower emailContent.text
  let hasRequiredText := strContains textLower (sLower requiredText)
  if !hasUnsubscribe && !hasRequiredText then
    { status := .FAIL, message := some "No unsubscribe link or text found",
      required := some requiredText,
      issues := ["Missing unsubscribe link/text - COMPLIANCE ISSUE"],
      hasLink := none, hasText := none }
  else
    { status := .PASS, message := none, required := none, issues := [],
      hasLink := some ((emailContent.hasUnsubscribe.map UnsubSignal.hasLink).getD false),
      hasText := some (((emailContent.hasUnsubscribe.map UnsubSignal.hasText).getD false)
        || hasRequiredText) }

/-- The built-in default compliance texts of the footer check. -/
def defaultCompliance : List String := ["all rights reserved", "privacy policy", "terms"]

/-- `checkFooter`: an empty (or absent) configured list is replaced by the
default compliance set; the search text is the footer text and the full
text joined by a space, lower-cased; with an explicit non-empty list and
zero matches the check fails early with an empty found list; otherwise it
fails exactly when some checked text is missing. -/
def checkFooter (footerText fullText : String)
    (requiredTextsOpt : Option (List String)) : FooterResult :=
  let requiredTexts := requiredTextsOpt.getD []
  let textsToCheck := if requiredTexts.length > 0 then requiredTexts else defaultCompliance
  let searchText := sLower (footerText ++ " " ++ fullText)
  let found := textsToCheck.filter fun t => strContains searchText (sLower t)
  let issues := (textsToCheck.filter fun t => !strContains searchText (sLower t)).map
    fun t => "Required footer text not found: " ++ t
  if found.length == 0 && requiredTexts.length > 0 then
    { status := .FAIL, required := textsToCheck, found := [], issues := issues }
  else
    { status := if issues.length == 0 then .PASS else .FAIL,
      required := textsToCheck, found := found, issues := issues }

/-- `checkKeywords`: vacuous pass when no keywords are configured; otherwise
every keyword must appear case-insensitively in the email text, and all
missing keywords are listed. -/
def checkKeywords (emailText : String)
    (requiredKeywordsOpt : Option (List String)) : KeywordsResult :=
  let req := requiredKeywordsOpt.getD []
  if req.isEmpty then
    { status := .PASS, message := some "No specific keywords configured for comparison",
      required := [], found := [], missing := [], issues := [] }
  else
    let textLower := sLower emailText
    let found := req.filter fun k => strContains textLower (sLower k)
    let missing := req.filter fun k => !strContains textLower (sLower k)
    { status := if missing.isEmpty then .PASS else .FAIL, message := none,
      required := req, found := found, missing := missing,
      issues := missing.map fun k => "Required keyword not found in email: " ++ k }

/-! ## Report aggregator (ReportGenerator) -/

/-- The five deterministic check results, as returned by the comparator. -/
structure FunctionResults where
  cta_text : CtaResult
  cta_url : CtaResult
  unsubscribe : UnsubResult
  footer : FooterResult
  keywords : KeywordsResult
deriving DecidableEq

/-- Status of one semantic field (the AI layer also uses a not-applicable value). -/
inductive SStatus
  | PASS
  | FAIL
  | NA
deriving DecidableEq

/-- One per-field semantic result (only the fields the aggregator inspects). -/
structure SemField where
  status : SStatus
  issues : List String
deriving DecidableEq

/-- The semantic comparison result consumed by the aggregator.  The summary
string and confidence numbers carry no status, so the per-field loop of the
source can only ever see a failing status on these three entries. -/
structure SemanticResults where
  headings : Option SemField
  body_copy : Option SemField
  offer : Option SemField
  overall_match : Bool
  mock_mode : Bool
deriving DecidableEq

/-- Does an optional semantic field carry a failing status
(the optional-chaining status test of the per-field loop)? -/
def fieldFail (o : Option SemField) : Bool :=
  match o with
  | some f => f.status == SStatus.FAIL
  | none => false

/-- `determineOverallStatus`: hard fail when the deterministic layer failed;
otherwise fail when a semantic result is present and its overall-match flag
is false; otherwise fail when some per-field semantic status is failing;
otherwise pass. -/
def determineOverallStatus (functionResults : FunctionResults)
    (semanticResults : Option SemanticResults) (functionPassed : Bool) : Status :=
  if !functionPassed then .FAIL
  else if (match semanticResults with
           | some s => !s.overall_match
           | none => false) then .FAIL
  else if (match semanticResults with
           | some s => fieldFail s.headings || fieldFail s.body_copy || fieldFail s.offer
           | none => false) then .FAIL
  else .PASS

/-! ## Theorems -/

/-- An optional semantic field carries a failing status exactly when it is
present and its status is FAIL. -/
theorem fieldFail_iff (o : Option SemField) :
    fieldFail o = true ↔ ∃ f, o = some f ∧ f.status = SStatus.FAIL := by
  cases o with
  | none => simp [fieldFail]
  | some f => simp [fieldFail]

/-- C1: the report overall status is FAIL precisely when the deterministic
layer failed, or a semantic result is present whose overall-match flag is
false or one of whose per-field statuses is FAIL; in every other case
(including an absent semantic result) it is PASS. -/
theorem determineOverallStatus_spec (fr : FunctionResults)
    (sem : Option SemanticResults) (fp : Bool) :
    determineOverallStatus fr sem fp = Status.FAIL ↔
      (fp = false ∨ ∃ s, sem = some s ∧
        (s.overall_match = false ∨
          (∃ f, s.headings = some f ∧ f.status = SStatus.FAIL) ∨
          (∃ f, s.body_copy = some f ∧ f.status = SStatus.FAIL) ∨
          (∃ f, s.offer = some f ∧ f.status = SStatus.FAIL))) := by
  cases fp with
  | false => simp [determineOverallStatus]
  | true =>
    cases sem with
    | none => simp [determineOverallStatus]
    | some s =>
      cases hm : s.overall_match with
      | false => simp [determineOverallStatus, hm]
      | true =>
        cases hb : (fieldFail s.headings || fieldFail s.body_copy || fieldFail s.offer) with
        | false =>
          have hb' := hb
          rw [Bool.or_eq_false_iff, Bool.or_eq_false_iff] at hb'
          obtain ⟨⟨h1, h2⟩, h3⟩ := hb'
          simp [determineOverallStatus, hm, hb, ← fieldFail_iff, h1, h2, h3]
        | true =>
          have hb' := hb
          rw [Bool.or_eq_true, Bool.or_eq_true] at hb'
          simp only [determineOverallStatus, hm, hb, ← fieldFail_iff]
          simp only [Bool.not_true, Bool.if_false_left]
          constructor
          · intro _
            exact Or.inr ⟨s, rfl, Or.inr (by tauto)⟩
          · intro _
            simp

/-- Projection helper for literal footer results. -/
theorem mkFooter_status (st : Status) (r f i : List String) :
    (FooterResult.mk st r f i).status = st := rfl

/-- A pass-else-fail conditional equals PASS exactly when its condition holds. -/
theorem ite_status_pass_iff (c : Bool) :
    (if c = true then Status.PASS else Status.FAIL) = Status.PASS ↔ c = true := by
  cases c <;> simp

/-- The footer check passes exactly when every text of the effective list
(the configured list when non-empty, else the default compliance set) is
found case-insensitively in the space-joined footer-plus-body search text. -/
theorem checkFooter_pass_iff (footerText fullText : String) (ro : Option (List String)) :
    (checkFooter footerText fullText ro).status = Status.PASS ↔
      ∀ t ∈ (if (ro.getD []).length > 0 then ro.getD [] else defaultCompliance),
        strContains (sLower (footerText ++ " " ++ fullText)) (sLower t) = true := by
  simp only [checkFooter]
  split
  · -- explicit non-empty configured list
    next h1 =>
    split
    · -- early branch: zero matches on a non-empty list; both sides fail
      next hearly =>
      simp only [Bool.and_eq_true, beq_iff_eq, decide_eq_true_eq, List.length_eq_zero,
        List.filter_eq_nil_iff] at hearly
      obtain ⟨h0, _⟩ := hearly
      have hne : ro.getD [] ≠ [] := by
        intro hnil
        rw [hnil] at h1
        exact absurd h1 (by simp)
      rcases List.exists_mem_of_ne_nil _ hne with ⟨t, ht⟩
      rw [mkFooter_status]
      constructor
      · intro hco
        exact Status.noConfusion hco
      · intro hall
        exact absurd (hall t ht) (by simpa using h0 t ht)
    · next hearly =>
      rw [mkFooter_status, ite_status_pass_iff]
      simp [beq_iff_eq, List.length_eq_zero, List.map_eq_nil_iff, List.filter_eq_nil_iff]
  · -- empty configured list: the default compliance set is in effect
    next h1 =>
    split
    · next hearly =>
      exfalso
      simp only [Bool.and_eq_true, decide_eq_true_eq] at hearly
      exact h1 hearly.2
    · next hearly =>
      rw [mkFooter_status, ite_status_pass_iff]
      simp [beq_iff_eq, List.length_eq_zero, List.map_eq_nil_iff, List.filter_eq_nil_iff]

/-- C2: with an empty (or absent) configured footer list, the check is
evaluated against the built-in default compliance set and passes exactly
when all three default items appear case-insensitively in the footer text
joined with the full email text. -/
theorem checkFooter_default_spec (footerText fullText : String)
    (ro : Option (List String)) (h : ro.getD [] = []) :
    (checkFooter footerText fullText ro).required = defaultCompliance ∧
    ((checkFooter footerText fullText ro).status = Status.PASS ↔
      (strContains (sLower (footerText ++ " " ++ fullText)) "all rights reserved" = true ∧
       strContains (sLower (footerText ++ " " ++ fullText)) "privacy policy" = true ∧
       strContains (sLower (footerText ++ " " ++ fullText)) "terms" = true)) := by
  constructor
  · simp [checkFooter, h]
  · rw [checkFooter_pass_iff, h]
    have e1 : sLower "all rights reserved" = "all rights reserved" := by decide
    have e2 : sLower "privacy policy" = "privacy policy" := by decide
    have e3 : sLower "terms" = "terms" := by decide
    simp [defaultCompliance, e1, e2, e3]

/-- C2 witness: with an absent configured list and footer text containing the
three default items, the check passes. -/
theorem checkFooter_default_spec_witness :
    ((none : Option (List String)).getD [] = []) ∧
    (checkFooter "All Rights Reserved. Privacy Policy. Terms." "" none).status = Status.PASS :=
  ⟨rfl, (checkFooter_default_spec "All Rights Reserved. Privacy Policy. Terms." "" none rfl).2.mpr
    (by refine ⟨by decide, by decide, by decide⟩)⟩

/-- C3 counterexample: with the explicit list of two required texts of which
exactly one is found, the code returns FAIL even though the found list is
non-empty — refuting that a single match suffices for PASS with an explicit
list. -/
theorem checkFooter_explicit_counterexample :
    (checkFooter "aaa" "" (some ["aaa", "bbb"])).status = Status.FAIL ∧
    (checkFooter "aaa" "" (some ["aaa", "bbb"])).found = ["aaa"] := by
  constructor <;> decide

/-- C3 amended: with an explicit non-empty required list, the footer check
passes exactly when every required text is found case-insensitively in the
search text — one match is not enough; any missing text yields FAIL, just
as with the default set. -/
theorem checkFooter_explicit_spec (footerText fullText : String) (ts : List String)
    (h : ts ≠ []) :
    ((checkFooter footerText fullText (some ts)).status = Status.PASS ↔
      ∀ t ∈ ts, strContains (sLower (footerText ++ " " ++ fullText)) (sLower t) = true) := by
  rw [checkFooter_pass_iff]
  have hg : ((some ts).getD ([] : List String)) = ts := rfl
  rw [hg, if_pos (List.length_pos.mpr h)]

/-- C3 amended witness: a one-element explicit list whose text is found. -/
theorem checkFooter_explicit_spec_witness :
    (["terms"] ≠ ([] : List String)) ∧
    (checkFooter "Terms apply" "" (some ["terms"])).status = Status.PASS :=
  ⟨by decide, (checkFooter_explicit_spec "Terms apply" "" ["terms"] (by decide)).mpr (by decide)⟩

/-- C4: with empty (or absent) configured CTA texts, CTA URLs, and keywords,
the corresponding three checks pass regardless of the email content. -/
theorem vacuousPass_spec (documentText : String) (emailCTAs : List CTA) (emailText : String)
    (e1 e2 e3 : Option (List String))
    (h1 : e1.getD [] = []) (h2 : e2.getD [] = []) (h3 : e3.getD [] = []) :
    (compareCTAText documentText emailCTAs e1).status = Status.PASS ∧
    (compareCTAUrls emailCTAs e2).status = Status.PASS ∧
    (checkKeywords emailText e3).status = Status.PASS := by
  refine ⟨?_, ?_, ?_⟩
  · simp [compareCTAText, h1]
  · simp [compareCTAUrls, h2]
  · simp [checkKeywords, h3]

/-- C4 witness: the three checks pass on a non-trivial email content with
absent and explicitly-empty configurations. -/
theorem vacuousPass_spec_witness :
    ((none : Option (List String)).getD [] = [] ∧ (some ([] : List String)).getD [] = []) ∧
    (compareCTAText "doc" [⟨"Buy now", "https://s.test/a", "https://s.test/a"⟩] none).status
      = Status.PASS ∧
    (compareCTAUrls [⟨"Buy now", "https://s.test/a", "https://s.test/a"⟩] (some [])).status
      = Status.PASS ∧
    (checkKeywords "any text" (some [])).status = Status.PASS :=
  ⟨⟨rfl, rfl⟩, vacuousPass_spec "doc" [⟨"Buy now", "https://s.test/a", "https://s.test/a"⟩]
    "any text" none (some []) (some []) rfl rfl rfl⟩

/-- Modelled from the claim for comparison (refinement target only): the
fallback result the specification asserts for an unparseable URL — the
original string lower-cased with a trailing slash stripped. -/
def specFallback (s : String) : String := sLower (stripSlashEnd s)

/-- C5 counterexample: on an unparseable input the canonicalizer returns the
input unchanged, not the lower-cased slash-stripped fallback the claim
describes. -/
theorem stripTrackingParams_fallback_counterexample :
    parseURL "NotAURL/" = none ∧
    stripTrackingParams "NotAURL/" = "NotAURL/" ∧
    stripTrackingParams "NotAURL/" ≠ specFallback "NotAURL/" := by
  refine ⟨by decide, by decide, by decide⟩

/-- C5 amended: the canonicalizer is total, and on any input that does not
parse as a URL it returns the original string unchanged. -/
theorem stripTrackingParams_total_fallback (s : String) (h : parseURL s = none) :
    stripTrackingParams s = s := by
  simp [stripTrackingParams, h]

/-- C5 amended witness: the unparseable input is returned unchanged. -/
theorem stripTrackingParams_total_fallback_witness :
    parseURL "NotAURL/" = none ∧ stripTrackingParams "NotAURL/" = "NotAURL/" :=
  ⟨by decide, stripTrackingParams_total_fallback "NotAURL/" (by decide)⟩

/-- C6: evaluation of the canonicalizer at the claim's own example and at
the failing input.  The example behaves as claimed (`utm_source` removed,
`id=1` kept), but on two adjacent parameters both starting with the
tracking entry for referrers the second survives: deleting during
live-list iteration skips the entry that slides into the deleted slot, so
not every tracking-prefixed parameter is removed. -/
theorem stripTrackingParams_eval :
    stripTrackingParams "https://x.test/p?utm_source=a&id=1" = "https://x.test/p?id=1" ∧
    stripTrackingParams "https://x.test/p?refa=1&refb=2" = "https://x.test/p?refb=2" := by
  constructor <;> decide

/-- C7: canonicalization is not idempotent on this parseable URL — the
parameter skipped by the mutating iteration on the first run is removed by
the second run. -/
theorem stripTrackingParams_not_idempotent :
    (parseURL "https://x.test/p?refa=1&refb=2").isSome = true ∧
    stripTrackingParams (stripTrackingParams "https://x.test/p?refa=1&refb=2") ≠
      stripTrackingParams "https://x.test/p?refa=1&refb=2" := by
  constructor
  · decide
  · decide

/-- C8: when the extractor's unsubscribe signal has a link match, the
unsubscribe check passes even though the email's full text contains neither
the word unsubscribe nor the configured text — the link signal alone
suffices. -/
theorem checkUnsubscribe_link_only (bodyText : String) (anchors : List Anchor)
    (emailText html footer : String) (ctas links : List CTA) (requiredText : String)
    (hlink : (findUnsubscribe bodyText anchors).hasLink = true)
    (hword : strContains (sLower emailText) "unsubscribe" = false)
    (hreq : strContains (sLower emailText) (sLower requiredText) = false) :
    (checkUnsubscribe ⟨emailText, html, ctas, links, some (findUnsubscribe bodyText anchors), footer⟩
      (some requiredText)).status = Status.PASS := by
  have hfound : (findUnsubscribe bodyText anchors).found = true := by
    have hsplit : (findUnsubscribe bodyText anchors).found
        = ((findUnsubscribe bodyText anchors).hasText
            || (findUnsubscribe bodyText anchors).hasLink) := rfl
    rw [hsplit, hlink, Bool.or_true]
  simp [checkUnsubscribe, hfound]

/-- C8 witness: an anchor with an opt-out href, body text without any
unsubscribe wording, and a configured text absent from the email. -/
theorem checkUnsubscribe_link_only_witness :
    (findUnsubscribe "hi" [⟨"x", "https://e.test/optout", false⟩]).hasLink = true ∧
    strContains (sLower "hello there") "unsubscribe" = false ∧
    strContains (sLower "hello there") (sLower "stop mail") = false ∧
    (checkUnsubscribe ⟨"hello there", "", [], [],
      some (findUnsubscribe "hi" [⟨"x", "https://e.test/optout", false⟩]), ""⟩
      (some "stop mail")).status = Status.PASS :=
  ⟨by decide, by decide, by decide,
    checkUnsubscribe_link_only "hi" [⟨"x", "https://e.test/optout", false⟩]
      "hello there" "" "" [] [] "stop mail" (by decide) (by decide) (by decide)⟩

/-- The first-hit probe over an all-empty selector result list is empty. -/
theorem firstHit_all_none (hits : List (Option String)) (h : ∀ x ∈ hits, x = none) :
    firstHit hits = "" := by
  induction hits with
  | nil => rfl
  | cons a rest ih =>
    have ha : a = none := h a (List.mem_cons_self a rest)
    subst ha
    exact ih fun x hx => h x (List.mem_cons_of_mem _ hx)

/-- C10: with no footer-like element matched and exactly 7 non-blank lines
of visible text, the extracted footer is the last 5 of those lines joined
by newline. -/
theorem extractFooter_fallback_spec (hits : List (Option String)) (bodyText : String)
    (hnone : ∀ x ∈ hits, x = none)
    (hlen : (nonBlankLines bodyText).length = 7) :
    extractFooter hits bodyText = joinNl ((nonBlankLines bodyText).drop 2) := by
  have hf : firstHit hits = "" := firstHit_all_none hits hnone
  simp [extractFooter, hf, hlen]

/-- C10 witness: a 7-line body with no footer-like element yields the last
5 lines joined by newline. -/
theorem extractFooter_fallback_spec_witness :
    (∀ x ∈ ([none, none, none, none] : List (Option String)), x = none) ∧
    (nonBlankLines "a\nb\nc\nd\ne\nf\ng").length = 7 ∧
    extractFooter [none, none, none, none] "a\nb\nc\nd\ne\nf\ng" = "c\nd\ne\nf\ng" :=
  ⟨by decide, by decide, by
    rw [extractFooter_fallback_spec [none, none, none, none] "a\nb\nc\nd\ne\nf\ng"
      (by decide) (by decide)]
    decide⟩

/-- C9 counterexample: two distinct button-like anchors sharing a display
text both survive pass 1, so the candidate sequence is not de-duplicated by
display text. -/
theorem extractCTAs_dedup_counterexample :
    ¬ List.Pairwise (fun a b : CTA => a.text ≠ b.text)
      (extractCTAs [⟨"Dup CTA", "https://a.test/1", true⟩,
                    ⟨"Dup CTA", "https://a.test/2", true⟩]) := by
  intro hp
  have he : extractCTAs [⟨"Dup CTA", "https://a.test/1", true⟩,
      ⟨"Dup CTA", "https://a.test/2", true⟩]
      = [⟨"Dup CTA", "https://a.test/1", "https://a.test/1"⟩,
         ⟨"Dup CTA", "https://a.test/2", "https://a.test/2"⟩] := by decide
  rw [he] at hp
  rcases List.pairwise_cons.mp hp with ⟨hhead, _⟩
  exact hhead _ (List.mem_cons_self _ _) rfl

/-- The pass-2 accumulation of `extractCTAs` only appends candidates whose
display text is new: starting from any accumulator, the appended suffix has
pairwise-distinct texts, each distinct from every accumulator text. -/
theorem pass2_fold_spec (doc : List Anchor) :
    ∀ acc : List CTA, ∃ q : List CTA,
      doc.foldl (fun acc a => if pass2cond acc a then acc ++ [mkCTA a] else acc) acc
        = acc ++ q ∧
      List.Pairwise (fun a b : CTA => a.text ≠ b.text) q ∧
      ∀ c ∈ q, ∀ c' ∈ acc, c.text ≠ c'.text := by
  induction doc with
  | nil => exact fun acc => ⟨[], by simp, by simp, by simp⟩
  | cons a d ih =>
    intro acc
    by_cases h : pass2cond acc a = true
    · obtain ⟨q', he, hp, hd⟩ := ih (acc ++ [mkCTA a])
      have hnotin : ∀ c' ∈ acc, c'.text ≠ (mkCTA a).text := by
        have h4 : (acc.any fun c => c.text == sTrim a.text) = false := by
          simp only [pass2cond, Bool.and_eq_true, Bool.not_eq_true'] at h
          exact h.2
        rw [List.any_eq_false] at h4
        intro c' hc' hceq
        exact h4 c' hc' (by simpa [mkCTA] using hceq)
      refine ⟨mkCTA a :: q', ?_, ?_, ?_⟩
      · rw [List.foldl_cons, if_pos h, he]
        simp
      · refine List.pairwise_cons.mpr ⟨?_, hp⟩
        intro b hb
        exact (hd b hb (mkCTA a) (by simp)).symm
      · intro c hc c' hc'
        rcases List.mem_cons.mp hc with hca | hcq
        · subst hca
          exact (hnotin c' hc').symm
        · exact hd c hcq c' (List.mem_append_left _ hc')
    · obtain ⟨q', he, hp, hd⟩ := ih acc
      refine ⟨q', ?_, hp, hd⟩
      rw [List.foldl_cons, if_neg h, he]

/-- C9 amended: the candidate sequence is the pass-1 (button-like)
candidates in document order followed by the pass-2 (action-verb)
candidates in document order; de-duplication by exact display text applies
only to the pass-2 suffix, whose texts are pairwise distinct and distinct
from every pass-1 text, while pass 1 may repeat a display text. -/
theorem extractCTAs_structure (doc : List Anchor) :
    ∃ p2 : List CTA,
      extractCTAs doc = (doc.filter pass1cond).map mkCTA ++ p2 ∧
      List.Pairwise (fun a b : CTA => a.text ≠ b.text) p2 ∧
      ∀ c ∈ p2, ∀ c' ∈ (doc.filter pass1cond).map mkCTA, c.text ≠ c'.text := by
  obtain ⟨q, he, hp, hd⟩ := pass2_fold_spec doc ((doc.filter pass1cond).map mkCTA)
  exact ⟨q, by simpa [extractCTAs] using he, hp, hd⟩
